import Mathlib

/-!
Verification of the Win2D game-loop scheduling subsystem, as exhibited by
`src/winrt/test.internal/xaml/GameLoopThreadTests.cpp`.

The source under `src/` contains the `FakeDispatcher` (a reference
implementation of the dispatcher-queue event loop used by the tests), mock
clients and the test cases.  The production `GameLoopThread`,
`CanvasGameLoop` and `AnimatedControlAsyncAction` classes are not part of
the visible source; where a claim depends on them they are modelled from
the specification, with a doc comment saying so.

Conventions of the shallow embedding:
* COM `HRESULT`s are `Int`; a non-negative value is a success code.
  `FakeDispatcher::TryEnqueueWithPriority` ends in `return true`, which as
  an `HRESULT` is the numeric value 1 (a success code), so the embedding
  returns `(1 : Int)` there.
* Handlers (`IDispatcherQueueHandler`) are opaque and identified by `Nat`
  ids; executing a handler means appending its id to an execution log.
* The mutex / condition-variable concurrency of `RunEventLoop` is
  sequentialised: the environment is a list of operations
  (`DispatcherOp`), one of which is consumed each time the loop blocks in
  `m_conditionVariable.wait`.  A run that would block forever (or for
  which the fuel runs out) yields `none`.
-/

/-- `DispatcherQueuePriority` values used by the tests
(`DispatcherQueuePriority_Low`, `_Normal`, `_High`). -/
inductive DispatcherQueuePriority where
  | low
  | normal
  | high
deriving DecidableEq, Repr

/-- Success test for an embedded `HRESULT`: the `SUCCEEDED` macro. -/
def SUCCEEDED (hr : Int) : Prop := 0 ≤ hr

instance (hr : Int) : Decidable (SUCCEEDED hr) := by
  unfold SUCCEEDED
  infer_instance

/-- `E_UNEXPECTED` (`0x8000FFFF`) viewed as a signed 32-bit value. -/
def E_UNEXPECTED : Int := -2147418113

/-- State of the `FakeDispatcher` from the test file: the `m_stopped`
flag, the `m_pendingActions` vector (handler ids in arrival order), and
the log of priorities passed to `RunAsyncValidation.WasCalled` by
`TryEnqueueWithPriority`. -/
structure FakeDispatcher where
  stopped : Bool
  pendingActions : List Nat
  runAsyncValidation : List DispatcherQueuePriority
deriving DecidableEq, Repr

/-- The `FakeDispatcher` constructor: `m_stopped(false)`, empty queue. -/
def FakeDispatcher.init : FakeDispatcher :=
  { stopped := false, pendingActions := [], runAsyncValidation := [] }

/-- `FakeDispatcher::TryEnqueueWithPriority(priority, agileCallback, result)`:
records the priority with `RunAsyncValidation.WasCalled(priority)`, appends
the wrapped action to `m_pendingActions`, notifies the condition variable
and executes `return true` (numeric `HRESULT` 1).  The boolean
out-parameter `result` is modelled explicitly as the content of the
caller's result location (`Option Bool`, `none` standing for an
uninitialised cell); the function returns the new dispatcher state, the
`HRESULT`, and the content of the result location after the call. -/
def FakeDispatcher.tryEnqueueWithPriority (d : FakeDispatcher)
    (priority : DispatcherQueuePriority) (agileCallback : Nat)
    (result : Option Bool) :
    FakeDispatcher × Int × Option Bool :=
  ({ d with
      runAsyncValidation := d.runAsyncValidation ++ [priority],
      pendingActions := d.pendingActions ++ [agileCallback] },
   1,
   result)

/-- `FakeDispatcher::EnqueueEventLoopExit()`: sets `m_stopped = true`,
notifies the condition variable, returns `S_OK`. -/
def FakeDispatcher.enqueueEventLoopExit (d : FakeDispatcher) :
    FakeDispatcher × Int :=
  ({ d with stopped := true }, 0)

/-- Environment operations that can happen while `RunEventLoop` is
blocked in `m_conditionVariable.wait`: another thread enqueues a handler
or requests exit. -/
inductive DispatcherOp where
  | enqueue (priority : DispatcherQueuePriority) (handler : Nat)
  | exitRequest
deriving DecidableEq, Repr

/-- Apply one environment operation to the dispatcher state (the two
public mutators of `FakeDispatcher`). -/
def FakeDispatcher.applyOp (d : FakeDispatcher) : DispatcherOp → FakeDispatcher
  | DispatcherOp.enqueue p h => (d.tryEnqueueWithPriority p h none).1
  | DispatcherOp.exitRequest => d.enqueueEventLoopExit.1

/-- The handlers enqueued by a list of environment operations, in order. -/
def enqHandlers (env : List DispatcherOp) : List Nat :=
  env.filterMap fun op =>
    match op with
    | DispatcherOp.enqueue _ h => some h
    | DispatcherOp.exitRequest => none

/-- Body of the `while (!m_stopped)` loop of
`FakeDispatcher::RunEventLoop`: check `m_stopped`; swap out
`m_pendingActions`; if the swapped batch is non-empty, unlock and invoke
each action in order (append the batch to the execution log); otherwise
block in `m_conditionVariable.wait`, which is modelled by consuming the
next environment operation (`none` if the environment is exhausted, i.e.
the loop would block forever).  `fuel` bounds the number of iterations;
`none` also means the fuel ran out. -/
def FakeDispatcher.runEventLoopAux :
    Nat → FakeDispatcher → List DispatcherOp → List Nat →
    Option (FakeDispatcher × List Nat)
  | 0, _, _, _ => none
  | Nat.succ fuel, d, env, log =>
    if d.stopped then
      some (d, log)
    else
      let batch := d.pendingActions
      let d' := { d with pendingActions := [] }
      if batch.isEmpty then
        match env with
        | [] => none
        | op :: rest => FakeDispatcher.runEventLoopAux fuel (d'.applyOp op) rest log
      else
        FakeDispatcher.runEventLoopAux fuel d' env (log ++ batch)

/-- `FakeDispatcher::RunEventLoop()`: sets `m_stopped = false` on entry,
then runs the drain loop.  Returns the final dispatcher state and the
ordered log of executed handlers, or `none` if the loop never returns
(blocks forever / fuel exhausted). -/
def FakeDispatcher.runEventLoop (fuel : Nat) (d : FakeDispatcher)
    (env : List DispatcherOp) : Option (FakeDispatcher × List Nat) :=
  FakeDispatcher.runEventLoopAux fuel { d with stopped := false } env []

/-- C10: `FakeDispatcher::TryEnqueueWithPriority` never writes through its
boolean out-parameter `result`: the content of the result location after
the call is exactly its content before the call, for every state,
priority, handler and prior content (including the uninitialised `none`). -/
theorem tryEnqueue_preserves_result_outparam
    (d : FakeDispatcher) (p : DispatcherQueuePriority) (h : Nat)
    (r : Option Bool) :
    (d.tryEnqueueWithPriority p h r).2.2 = r :=
  rfl

/-- C6 counterexample: after the queue has been shut down with
`EnqueueEventLoopExit`, `TryEnqueueWithPriority` still schedules the
handler (it lands in `m_pendingActions`) and still returns a success
status, contradicting the claim that it fails and does not schedule. -/
theorem tryEnqueue_after_shutdown_counterexample :
    (FakeDispatcher.init.enqueueEventLoopExit.1.stopped = true) ∧
    (FakeDispatcher.init.enqueueEventLoopExit.1.tryEnqueueWithPriority
        DispatcherQueuePriority.normal 7 none).1.pendingActions = [7] ∧
    SUCCEEDED (FakeDispatcher.init.enqueueEventLoopExit.1.tryEnqueueWithPriority
        DispatcherQueuePriority.normal 7 none).2.1 := by
  refine ⟨rfl, rfl, ?_⟩
  decide

/-- C6 amended: `FakeDispatcher::TryEnqueueWithPriority` never signals
failure; for every call, in every state (shut down or not), it records the
priority, appends the handler to the pending queue, leaves the result
location untouched and returns the success status 1. -/
theorem tryEnqueue_always_succeeds_and_schedules
    (d : FakeDispatcher) (p : DispatcherQueuePriority) (h : Nat)
    (r : Option Bool) :
    d.tryEnqueueWithPriority p h r =
      ({ d with
          runAsyncValidation := d.runAsyncValidation ++ [p],
          pendingActions := d.pendingActions ++ [h] },
       1, r) :=
  rfl

/-- C9: `RunEventLoop` clears any previously recorded exit request on
entry (`m_stopped = false`): running the loop after an earlier
`EnqueueEventLoopExit` behaves exactly as if that exit request had never
happened, and in particular on a fresh dispatcher with no environment
activity the loop does not return (it blocks waiting for a new exit
request) rather than returning immediately. -/
theorem runEventLoop_resets_prior_exit_request
    (fuel : Nat) (d : FakeDispatcher) (env : List DispatcherOp) :
    FakeDispatcher.runEventLoop fuel d.enqueueEventLoopExit.1 env =
      FakeDispatcher.runEventLoop fuel d env ∧
    FakeDispatcher.runEventLoop fuel
      FakeDispatcher.init.enqueueEventLoopExit.1 [] = none := by
  constructor
  · rfl
  · cases fuel with
    | zero => rfl
    | succ n => rfl

theorem FakeDispatcher.applyOp_enqueue_stopped (d : FakeDispatcher)
    (p : DispatcherQueuePriority) (h : Nat) :
    (d.applyOp (DispatcherOp.enqueue p h)).stopped = d.stopped :=
  rfl

theorem runEventLoopAux_exits_only_on_request :
    ∀ (fuel : Nat) (d : FakeDispatcher) (env : List DispatcherOp)
      (log : List Nat) (d' : FakeDispatcher) (log' : List Nat),
      FakeDispatcher.runEventLoopAux fuel d env log = some (d', log') →
      d.stopped = true ∨ DispatcherOp.exitRequest ∈ env := by
  intro fuel
  induction fuel with
  | zero =>
    intro d env log d' log' h
    simp [FakeDispatcher.runEventLoopAux] at h
  | succ n ih =>
    intro d env log d' log' h
    by_cases hs : d.stopped = true
    · exact Or.inl hs
    · simp only [FakeDispatcher.runEventLoopAux, hs, if_false] at h
      by_cases hb : d.pendingActions.isEmpty = true
      · simp only [hb, if_true] at h
        cases env with
        | nil => simp at h
        | cons op rest =>
          cases op with
          | enqueue p hh =>
            rcases ih _ _ _ _ _ h with h1 | h2
            · simp [FakeDispatcher.applyOp,
                FakeDispatcher.tryEnqueueWithPriority] at h1
            · exact Or.inr (List.mem_cons_of_mem _ h2)
          | exitRequest =>
            exact Or.inr (List.mem_cons_self _ _)
      · simp only [hb, if_false] at h
        rcases ih _ _ _ _ _ h with h1 | h2
        · simp at h1
        · exact Or.inr h2

theorem runEventLoopAux_log :
    ∀ (fuel : Nat) (d : FakeDispatcher) (env : List DispatcherOp)
      (log : List Nat) (d' : FakeDispatcher) (log' : List Nat),
      FakeDispatcher.runEventLoopAux fuel d env log = some (d', log') →
      ∃ rest, log' ++ rest = log ++ d.pendingActions ++ enqHandlers env := by
  intro fuel
  induction fuel with
  | zero =>
    intro d env log d' log' h
    simp [FakeDispatcher.runEventLoopAux] at h
  | succ n ih =>
    intro d env log d' log' h
    by_cases hs : d.stopped = true
    · simp only [FakeDispatcher.runEventLoopAux, hs, if_true, Option.some_inj] at h
      obtain ⟨-, rfl⟩ := Prod.mk.injEq .. ▸ Prod.ext_iff.mp h
      exact ⟨d.pendingActions ++ enqHandlers env, by simp⟩
    · simp only [FakeDispatcher.runEventLoopAux, hs, if_false] at h
      by_cases hb : d.pendingActions.isEmpty = true
      · have hpend : d.pendingActions = [] := List.isEmpty_iff.mp hb
        simp only [hb, if_true] at h
        cases env with
        | nil => simp at h
        | cons op rest =>
          obtain ⟨r, hr⟩ := ih _ _ _ _ _ h
          cases op with
          | enqueue p hh =>
            refine ⟨r, ?_⟩
            rw [hr]
            simp [FakeDispatcher.applyOp, FakeDispatcher.tryEnqueueWithPriority,
              enqHandlers, hpend]
          | exitRequest =>
            refine ⟨r, ?_⟩
            rw [hr]
            simp [FakeDispatcher.applyOp, FakeDispatcher.enqueueEventLoopExit,
              enqHandlers, hpend]
      · simp only [hb, if_false] at h
        obtain ⟨r, hr⟩ := ih _ _ _ _ _ h
        refine ⟨r, ?_⟩
        rw [hr]
        simp

theorem runEventLoopAux_stopped_any_env
    (fuel : Nat) (d : FakeDispatcher) (env env' : List DispatcherOp)
    (log : List Nat) (hs : d.stopped = true) :
    FakeDispatcher.runEventLoopAux fuel d env log =
      FakeDispatcher.runEventLoopAux fuel d env' log := by
  cases fuel with
  | zero => rfl
  | succ n => simp [FakeDispatcher.runEventLoopAux, hs]

theorem runEventLoopAux_ignores_env_after_exit :
    ∀ (fuel : Nat) (d : FakeDispatcher) (env1 env2 : List DispatcherOp)
      (log : List Nat),
      FakeDispatcher.runEventLoopAux fuel d
        (env1 ++ DispatcherOp.exitRequest :: env2) log =
      FakeDispatcher.runEventLoopAux fuel d
        (env1 ++ [DispatcherOp.exitRequest]) log := by
  intro fuel
  induction fuel with
  | zero => intro d env1 env2 log; rfl
  | succ n ih =>
    intro d env1 env2 log
    cases hds : d.stopped with
    | true => simp [FakeDispatcher.runEventLoopAux, hds]
    | false =>
      cases hbe : d.pendingActions.isEmpty with
      | true =>
        cases env1 with
        | nil =>
          simp only [FakeDispatcher.runEventLoopAux, hds, hbe,
            Bool.false_eq_true, if_false, if_true, List.nil_append]
          exact runEventLoopAux_stopped_any_env n _ env2 [] log rfl
        | cons op env1' =>
          simp only [FakeDispatcher.runEventLoopAux, hds, hbe,
            Bool.false_eq_true, if_false, if_true, List.cons_append]
          exact ih _ env1' env2 log
      | false =>
        simp only [FakeDispatcher.runEventLoopAux, hds, hbe,
          Bool.false_eq_true, if_false]
        exact ih _ env1 env2 (log ++ d.pendingActions)

/-- C8: `FakeDispatcher::RunEventLoop` returns only after an exit has been
requested by `EnqueueEventLoopExit` (an `exitRequest` in the environment),
and the handlers it executed form, in order, a prefix of the arrival
sequence of handlers (the initial pending queue followed by the handlers
enqueued by the environment): same-priority-class FIFO order is preserved
since `FakeDispatcher` keeps all work in one arrival-ordered vector. -/
theorem runEventLoop_returns_only_after_exit_and_fifo
    (fuel : Nat) (d : FakeDispatcher) (env : List DispatcherOp)
    (d' : FakeDispatcher) (log : List Nat)
    (h : FakeDispatcher.runEventLoop fuel d env = some (d', log)) :
    DispatcherOp.exitRequest ∈ env ∧
    ∃ rest, log ++ rest = d.pendingActions ++ enqHandlers env := by
  unfold FakeDispatcher.runEventLoop at h
  rcases runEventLoopAux_exits_only_on_request _ _ _ _ _ _ h with h1 | h1
  · simp at h1
  · refine ⟨h1, ?_⟩
    obtain ⟨rest, hr⟩ := runEventLoopAux_log _ _ _ _ _ _ h
    exact ⟨rest, by simpa using hr⟩

/-- C8 witness: a dispatcher with handler 5 already pending, whose
environment enqueues handler 6 at low priority and then requests exit,
returns with execution log `[5, 6]`, an exit request in the environment,
and the log a prefix of the arrival order. -/
theorem runEventLoop_exit_and_fifo_witness :
    DispatcherOp.exitRequest ∈
      [DispatcherOp.enqueue DispatcherQueuePriority.low 6,
       DispatcherOp.exitRequest] ∧
    ∃ rest, [5, 6] ++ rest =
      ({ stopped := false, pendingActions := [5], runAsyncValidation := [] :
          FakeDispatcher }).pendingActions ++
        enqHandlers
          [DispatcherOp.enqueue DispatcherQueuePriority.low 6,
           DispatcherOp.exitRequest] :=
  runEventLoop_returns_only_after_exit_and_fifo 10
    { stopped := false, pendingActions := [5], runAsyncValidation := [] }
    [DispatcherOp.enqueue DispatcherQueuePriority.low 6,
     DispatcherOp.exitRequest]
    { stopped := true, pendingActions := [],
      runAsyncValidation := [DispatcherQueuePriority.low] }
    [5, 6]
    (by decide)

/-- C5: a handler enqueued after the stop request is never executed.  If
the environment of a `RunEventLoop` run consists of some operations
`env1` not enqueueing `h`, then an exit request, then an enqueue of `h`
(plus anything further), and `h` was not already pending, then `h` does
not appear in the execution log of the run: once stop is requested the
loop exits without running newly queued work. -/
theorem handler_enqueued_after_stop_never_executed
    (fuel : Nat) (d : FakeDispatcher) (env1 env2 : List DispatcherOp)
    (p : DispatcherQueuePriority) (h : Nat)
    (d' : FakeDispatcher) (log : List Nat)
    (hpend : h ∉ d.pendingActions)
    (henv1 : h ∉ enqHandlers env1)
    (hrun : FakeDispatcher.runEventLoop fuel d
      (env1 ++ DispatcherOp.exitRequest :: DispatcherOp.enqueue p h :: env2) =
        some (d', log)) :
    h ∉ log := by
  unfold FakeDispatcher.runEventLoop at hrun
  rw [runEventLoopAux_ignores_env_after_exit] at hrun
  obtain ⟨rest, hr⟩ := runEventLoopAux_log _ _ _ _ _ _ hrun
  intro hmem
  have hmem2 : h ∈ log ++ rest := List.mem_append_left _ hmem
  rw [hr] at hmem2
  simp [enqHandlers, List.filterMap_append] at hmem2
  rcases hmem2 with h1 | h1
  · exact hpend h1
  · exact henv1 (by simpa [enqHandlers] using h1)

/-- C5 witness: on a fresh dispatcher, with handler 1 enqueued before the
exit request and handler 2 enqueued after it, the loop runs handler 1
only, and handler 2 (enqueued after stop) is never executed. -/
theorem handler_after_stop_never_executed_witness :
    (2 : Nat) ∉ FakeDispatcher.init.pendingActions ∧
    (2 : Nat) ∉ enqHandlers [DispatcherOp.enqueue DispatcherQueuePriority.normal 1] ∧
    (2 : Nat) ∉ [1] :=
  ⟨by decide, by decide,
    handler_enqueued_after_stop_never_executed 10 FakeDispatcher.init
      [DispatcherOp.enqueue DispatcherQueuePriority.normal 1] []
      DispatcherQueuePriority.normal 2
      { stopped := true, pendingActions := [],
        runAsyncValidation := [DispatcherQueuePriority.normal] }
      [1]
      (by decide) (by decide) (by decide)⟩

/-- Modelled from the spec: `AnimatedControlAsyncAction` (the unit of work
returned by `RunAsync`) is not under `src/`; only the tests that exercise
it are.  Per the spec (sections 3, 4.1 and 9) it is a small state machine
`{Pending, Completed(status)}`: `completed`/`finalStatus` hold the state,
`completedHandler` the handler registered by `put_Completed`, and
`deliveries` logs every invocation of a completion handler together with
the status it was given. -/
structure AnimatedControlAsyncAction where
  completed : Bool
  finalStatus : Option Int
  completedHandler : Option Nat
  deliveries : List (Nat × Int)
deriving DecidableEq, Repr

/-- Modelled from the spec: a freshly created unit of work is Pending,
with no handler registered and nothing delivered. -/
def AnimatedControlAsyncAction.newAction : AnimatedControlAsyncAction :=
  { completed := false, finalStatus := none, completedHandler := none,
    deliveries := [] }

/-- Modelled from the spec: `InvokeAndFireCompletion` executes the wrapped
callback at most once (`callbackHr` is the status the callback produced),
moves the action to Completed, and, if a completion handler is already
registered, fires it with the final status; a second invocation is a
no-op (completion is signalled at most once). -/
def AnimatedControlAsyncAction.invokeAndFireCompletion (callbackHr : Int)
    (a : AnimatedControlAsyncAction) : AnimatedControlAsyncAction :=
  if a.completed then a
  else
    match a.completedHandler with
    | some h =>
      { a with
          completed := true
          finalStatus := some callbackHr
          deliveries := a.deliveries ++ [(h, callbackHr)] }
    | none =>
      { a with
          completed := true
          finalStatus := some callbackHr }

/-- Modelled from the spec: `put_Completed` / `RegisterCompletionHandler`
checks the state: if the action is still Pending it stores the handler to
be fired on completion; if completion already occurred it invokes the
handler immediately with the already-known final status (outside the
lock), so registration after completion still delivers. -/
def AnimatedControlAsyncAction.putCompleted (h : Nat)
    (a : AnimatedControlAsyncAction) : AnimatedControlAsyncAction :=
  match a.finalStatus with
  | some s =>
    { a with completedHandler := some h, deliveries := a.deliveries ++ [(h, s)] }
  | none => { a with completedHandler := some h }

/-- C1: for a unit of work returned by `RunAsync`, the completion handler
is delivered exactly once with the final status, in both orders of the
race: handler registered after the work already completed (the regression
scenario: `InvokeAndFireCompletion` runs inside `TryEnqueueWithPriority`
before `put_Completed`), and handler registered before completion; and a
further completion attempt delivers nothing more. -/
theorem completion_handler_fires_exactly_once
    (h : Nat) (hr hr' : Int) :
    (AnimatedControlAsyncAction.putCompleted h
      (AnimatedControlAsyncAction.invokeAndFireCompletion hr
        AnimatedControlAsyncAction.newAction)).deliveries = [(h, hr)] ∧
    (AnimatedControlAsyncAction.invokeAndFireCompletion hr
      (AnimatedControlAsyncAction.putCompleted h
        AnimatedControlAsyncAction.newAction)).deliveries = [(h, hr)] ∧
    (AnimatedControlAsyncAction.invokeAndFireCompletion hr'
      (AnimatedControlAsyncAction.putCompleted h
        (AnimatedControlAsyncAction.invokeAndFireCompletion hr
          AnimatedControlAsyncAction.newAction))).deliveries = [(h, hr)] :=
  ⟨rfl, rfl, rfl⟩

/-- Events observable at the game-loop boundary: the client notifications
`OnGameLoopStarting` / `OnGameLoopStopped`, a tick being scheduled on the
dispatcher at some priority, a tick executing, and the dispatcher event
loop exiting. -/
inductive GLEvent where
  | starting
  | scheduleTick (priority : DispatcherQueuePriority)
  | tick
  | loopExited
  | stopped
deriving DecidableEq, Repr

/-- Operations the owner thread can perform on a game-loop thread during
its lifetime, between construction and destruction. -/
inductive LifeOp where
  | startDispatcher
  | stopDispatcher
  | runTicks (n : Nat)
deriving DecidableEq, Repr

/-- Modelled from the spec: the tick-scheduling policy of
`CanvasGameLoop` / `GameLoopThread` (not under `src/`).  Each tick is
scheduled through `RunAsync`, which enqueues it on the dispatcher at
`DispatcherQueuePriority_Low` (the hard invariant of spec section 4.4),
and the tick then runs. -/
def tickEvents : Nat → List GLEvent
  | 0 => []
  | Nat.succ n =>
    GLEvent.scheduleTick DispatcherQueuePriority.low ::
      GLEvent.tick :: tickEvents n

/-- Modelled from the spec: effect of one owner-thread operation on the
game-loop thread (spec section 4.3 state machine).  `startDispatcher`
makes the event loop run; `stopDispatcher` blocks until the event loop
has actually exited (`loopExited` when it was running, idempotent
otherwise); `runTicks n` lets the tick loop schedule and run `n` ticks. -/
def opEvents : Bool → LifeOp → Bool × List GLEvent
  | _, LifeOp.startDispatcher => (true, [])
  | running, LifeOp.stopDispatcher =>
    (false, if running then [GLEvent.loopExited] else [])
  | running, LifeOp.runTicks n => (running, tickEvents n)

/-- Modelled from the spec: run a sequence of owner-thread operations,
threading the running flag and concatenating the emitted events. -/
def runOps : Bool → List LifeOp → Bool × List GLEvent
  | running, [] => (running, [])
  | running, op :: rest =>
    ((runOps (opEvents running op).1 rest).1,
     (opEvents running op).2 ++ (runOps (opEvents running op).1 rest).2)

/-- Modelled from the spec: destruction of the game-loop thread.  If the
loop is still running it is implicitly stopped and waited for
(`loopExited`), and then — in every case — `OnGameLoopStopped` is
delivered to the client before the destructor returns. -/
def destructorEvents (running : Bool) : List GLEvent :=
  (if running then [GLEvent.loopExited] else []) ++ [GLEvent.stopped]

/-- Modelled from the spec: the full observable trace of one game-loop
thread lifecycle: construction (which notifies the client
`OnGameLoopStarting` before anything is scheduled), the owner-thread
operations, then destruction. -/
def lifecycleTrace (ops : List LifeOp) : List GLEvent :=
  GLEvent.starting ::
    ((runOps false ops).2 ++ destructorEvents (runOps false ops).1)

/-- The priorities at which ticks were scheduled during a trace. -/
def tickPriorities (l : List GLEvent) : List DispatcherQueuePriority :=
  l.filterMap fun e =>
    match e with
    | GLEvent.scheduleTick p => some p
    | _ => none

/-- The total number of ticks requested by a sequence of owner-thread
operations. -/
def numTicks : List LifeOp → Nat
  | [] => 0
  | LifeOp.runTicks n :: rest => n + numTicks rest
  | _ :: rest => numTicks rest

theorem tickPriorities_append (l1 l2 : List GLEvent) :
    tickPriorities (l1 ++ l2) = tickPriorities l1 ++ tickPriorities l2 := by
  simp [tickPriorities, List.filterMap_append]

theorem tickPriorities_tickEvents (n : Nat) :
    tickPriorities (tickEvents n) =
      List.replicate n DispatcherQueuePriority.low := by
  induction n with
  | zero => rfl
  | succ m ih =>
    simp only [tickEvents, tickPriorities, List.filterMap_cons] at ih ⊢
    simp [ih, List.replicate_succ]

theorem tickPriorities_runOps :
    ∀ (ops : List LifeOp) (running : Bool),
      tickPriorities (runOps running ops).2 =
        List.replicate (numTicks ops) DispatcherQueuePriority.low := by
  intro ops
  induction ops with
  | nil => intro running; simp [runOps, numTicks, tickPriorities]
  | cons op rest ih =>
    intro running
    cases op with
    | startDispatcher =>
      exact ih true
    | stopDispatcher =>
      cases running with
      | false => exact ih false
      | true => exact ih false
    | runTicks n =>
      show tickPriorities (tickEvents n ++ (runOps running rest).2) =
        List.replicate (n + numTicks rest) DispatcherQueuePriority.low
      rw [tickPriorities_append, tickPriorities_tickEvents, ih running,
        List.replicate_add]

theorem tickPriorities_destructor (b : Bool) :
    tickPriorities (destructorEvents b) = [] := by
  cases b <;> simp [destructorEvents, tickPriorities]

/-- C2: every game-loop tick scheduled through the dispatcher is enqueued
at Low priority: over any whole lifecycle, the sequence of priorities
passed to the scheduling call is `Low` repeated once per tick, so no
scheduling call ever uses another priority. -/
theorem ticks_always_scheduled_at_low_priority (ops : List LifeOp) :
    tickPriorities (lifecycleTrace ops) =
      List.replicate (numTicks ops) DispatcherQueuePriority.low := by
  have h1 : tickPriorities (lifecycleTrace ops) =
      tickPriorities (runOps false ops).2 ++
        tickPriorities (destructorEvents (runOps false ops).1) := by
    simp only [lifecycleTrace]
    rw [show (GLEvent.starting ::
        ((runOps false ops).2 ++ destructorEvents (runOps false ops).1)) =
        [GLEvent.starting] ++
          ((runOps false ops).2 ++ destructorEvents (runOps false ops).1)
      from rfl]
    rw [tickPriorities_append, tickPriorities_append]
    rfl
  rw [h1, tickPriorities_destructor, tickPriorities_runOps]
  simp

theorem stopped_not_in_tickEvents : ∀ n, GLEvent.stopped ∉ tickEvents n := by
  intro n
  induction n with
  | zero => simp [tickEvents]
  | succ m ih => simp [tickEvents, ih]

theorem stopped_not_in_runOps :
    ∀ (ops : List LifeOp) (running : Bool),
      GLEvent.stopped ∉ (runOps running ops).2 := by
  intro ops
  induction ops with
  | nil => intro running; simp [runOps]
  | cons op rest ih =>
    intro running
    cases op with
    | startDispatcher => simpa [runOps, opEvents] using ih true
    | stopDispatcher =>
      cases running <;> simp [runOps, opEvents, ih false]
    | runTicks n =>
      simp [runOps, opEvents, ih running, stopped_not_in_tickEvents n]

theorem starting_not_in_tickEvents : ∀ n, GLEvent.starting ∉ tickEvents n := by
  intro n
  induction n with
  | zero => simp [tickEvents]
  | succ m ih => simp [tickEvents, ih]

theorem starting_not_in_runOps :
    ∀ (ops : List LifeOp) (running : Bool),
      GLEvent.starting ∉ (runOps running ops).2 := by
  intro ops
  induction ops with
  | nil => intro running; simp [runOps]
  | cons op rest ih =>
    intro running
    cases op with
    | startDispatcher => simpa [runOps, opEvents] using ih true
    | stopDispatcher =>
      cases running <;> simp [runOps, opEvents, ih false]
    | runTicks n =>
      simp [runOps, opEvents, ih running, starting_not_in_tickEvents n]

theorem starting_not_in_destructor (b : Bool) :
    GLEvent.starting ∉ destructorEvents b := by
  cases b <;> simp [destructorEvents]

theorem loopExited_runOps :
    ∀ (ops : List LifeOp) (running : Bool),
      (running = true ∨ LifeOp.startDispatcher ∈ ops) →
      GLEvent.loopExited ∈ (runOps running ops).2 ∨
        (runOps running ops).1 = true := by
  intro ops
  induction ops with
  | nil =>
    intro running h
    rcases h with h | h
    · exact Or.inr h
    · simp at h
  | cons op rest ih =>
    intro running h
    cases op with
    | startDispatcher =>
      rcases ih true (Or.inl rfl) with h1 | h1
      · exact Or.inl (by simpa [runOps, opEvents] using h1)
      · exact Or.inr (by simpa [runOps, opEvents] using h1)
    | stopDispatcher =>
      rcases h with h | h
      · subst h
        exact Or.inl (by simp [runOps, opEvents])
      · have hrest : LifeOp.startDispatcher ∈ rest := by
          rcases List.mem_cons.mp h with h2 | h2
          · exact absurd h2 (by decide)
          · exact h2
        rcases ih false (Or.inr hrest) with h1 | h1
        · refine Or.inl ?_
          cases running <;> simp [runOps, opEvents, h1]
        · refine Or.inr ?_
          cases running <;> simpa [runOps, opEvents] using h1
    | runTicks n =>
      have h' : running = true ∨ LifeOp.startDispatcher ∈ rest := by
        rcases h with h | h
        · exact Or.inl h
        · rcases List.mem_cons.mp h with h2 | h2
          · exact LifeOp.noConfusion h2
          · exact Or.inr h2
      rcases ih running h' with h1 | h1
      · exact Or.inl (by simp [runOps, opEvents, h1])
      · exact Or.inr (by simpa [runOps, opEvents] using h1)

/-- C4: `OnGameLoopStarting` is delivered to the client exactly once, and
it is the very first event of every lifecycle trace — during construction,
strictly before any `RunAsync`-scheduled tick and in particular before the
first `scheduleTick`. -/
theorem onGameLoopStarting_once_before_any_tick (ops : List LifeOp) :
    ∃ rest, lifecycleTrace ops = GLEvent.starting :: rest ∧
      GLEvent.starting ∉ rest := by
  refine ⟨_, rfl, ?_⟩
  intro hmem
  rcases List.mem_append.mp hmem with h | h
  · exact starting_not_in_runOps ops false h
  · exact starting_not_in_destructor _ h

/-- C4 witness: concrete lifecycle with one tick; `OnGameLoopStarting` is
the first event and appears nowhere later. -/
theorem onGameLoopStarting_once_witness :
    ∃ rest, lifecycleTrace [LifeOp.runTicks 1] = GLEvent.starting :: rest ∧
      GLEvent.starting ∉ rest :=
  onGameLoopStarting_once_before_any_tick [LifeOp.runTicks 1]

/-- C3: in every lifecycle whose dispatcher was started,
`OnGameLoopStopped` is delivered exactly once, as the final event of the
trace, strictly after the dispatcher event loop has exited — including
lifecycles that are destroyed without an explicit `StopDispatcher`
(destruction implicitly stops, waits for `loopExited`, then fires the
notification). -/
theorem onGameLoopStopped_once_after_loop_exit (ops : List LifeOp)
    (hstart : LifeOp.startDispatcher ∈ ops) :
    ∃ t, lifecycleTrace ops = t ++ [GLEvent.stopped] ∧
      GLEvent.stopped ∉ t ∧ GLEvent.loopExited ∈ t := by
  refine ⟨GLEvent.starting :: ((runOps false ops).2 ++
    (if (runOps false ops).1 then [GLEvent.loopExited] else [])), ?_, ?_, ?_⟩
  · simp [lifecycleTrace, destructorEvents]
  · intro hmem
    simp only [List.mem_cons, List.mem_append] at hmem
    rcases hmem with h | h | h
    · exact GLEvent.noConfusion h
    · exact stopped_not_in_runOps ops false h
    · cases hflag : (runOps false ops).1 <;> rw [hflag] at h <;> simp at h
  · rcases loopExited_runOps ops false (Or.inr hstart) with h | h
    · exact List.mem_cons_of_mem _ (List.mem_append_left _ h)
    · refine List.mem_cons_of_mem _ (List.mem_append_right _ ?_)
      rw [h]
      simp

/-- C3 witness: the dispatcher is started and the object is destroyed
without an explicit `StopDispatcher`; `OnGameLoopStopped` still fires,
exactly once, after the event loop has exited. -/
theorem onGameLoopStopped_once_witness :
    ∃ t, lifecycleTrace [LifeOp.startDispatcher, LifeOp.runTicks 2] =
        t ++ [GLEvent.stopped] ∧
      GLEvent.stopped ∉ t ∧ GLEvent.loopExited ∈ t :=
  onGameLoopStopped_once_after_loop_exit
    [LifeOp.startDispatcher, LifeOp.runTicks 2] (by decide)

/-- Modelled from the spec: the game-loop thread object produced by
`CreateGameLoopThread`.  Only the feature degraded by an input-source
creation failure is recorded: `inputSource` is `none` when
`CreateCoreIndependentInputSource` failed. -/
structure GameLoopThread where
  inputSource : Option Unit
deriving DecidableEq, Repr

/-- Modelled from the spec: `GameLoopThread` construction (the
`CreateGameLoopThread` implementation is not under `src/`).  It attempts
to create the surface-bound auxiliary input source; if that returns a
failure `HRESULT` the error is ignored (the feature is degraded) and
construction completes normally — the failure is never propagated, so the
result is always `Except.ok`. -/
def createGameLoopThread (inputSourceHr : Int) : Except Int GameLoopThread :=
  Except.ok { inputSource := if 0 ≤ inputSourceHr then some () else none }

/-- C7: construction completes and returns a usable thread object for
every result of `CreateCoreIndependentInputSource`; in particular, for
`E_UNEXPECTED` (the failure produced inside the designer) construction
still returns a thread object, merely without an input source. -/
theorem constructor_completes_on_input_source_failure :
    (∀ hr : Int, ∃ t, createGameLoopThread hr = Except.ok t) ∧
    createGameLoopThread E_UNEXPECTED = Except.ok { inputSource := none } := by
  constructor
  · intro hr
    exact ⟨_, rfl⟩
  · unfold createGameLoopThread
    rw [if_neg (by decide)]
